import Mathlib

/-!
Shallow embedding of the expense-tracker service (src/main.py) and proofs of
its specified properties.

Modelling conventions:
* The SQLite table `expenses` is a `DB`: a list of rows plus the next
  AUTOINCREMENT id.  SQL `REAL` amounts are modelled as exact rationals `ℚ`
  (numeric display formatting such as Python's `:.2f` is abstracted by
  `money`).
* Python optional parameters (`= None`) are `Option` arguments; Python string
  truthiness (`if s:`), used by the list/summary filters, is `strTruthy`.
* Each tool returns its reply text together with the resulting store state.
  The current date and the insertion timestamp are passed explicitly.
* `ORDER BY` is modelled with `List.insertionSort` over the comparison the
  SQL names; `GROUP BY category` groups the filtered rows by the distinct
  category values.
-/

/-- Expense is one row of the `expenses` table. -/
structure Expense where
  id : Nat
  amount : ℚ
  category : String
  subcategory : String
  description : String
  date : String
  created_at : String
deriving DecidableEq, Repr

/-- DB is the persistent store: the rows of the `expenses` table together
with the next AUTOINCREMENT id. -/
structure DB where
  rows : List Expense
  nextId : Nat
deriving DecidableEq, Repr

/-- Numeric display of an amount; Python's `:.2f` float formatting is
abstracted to the rational's own printing. -/
def money (q : ℚ) : String := toString q

/-- Python truthiness of an optional string argument (`if s:`): true exactly
when the argument was supplied and is non-empty. -/
def strTruthy : Option String → Bool
  | none => false
  | some s => !(s == "")

/-- One row passes the WHERE clause built by get_expenses / get_summary:
each of `date >= start_date`, `date <= end_date`, `category = ?` is appended
only when the corresponding argument is truthy. -/
def rowPasses (start_date end_date category : Option String) (e : Expense) : Bool :=
  (if strTruthy start_date then decide (start_date.getD "" ≤ e.date) else true) &&
  (if strTruthy end_date then decide (e.date ≤ end_date.getD "") else true) &&
  (if strTruthy category then category.getD "" == e.category else true)

/-- Comparison of `ORDER BY date DESC, id DESC`: `a` may precede `b`. -/
def expLE (a b : Expense) : Prop :=
  b.date < a.date ∨ (a.date = b.date ∧ b.id ≤ a.id)

instance : DecidableRel expLE := fun a b => by
  unfold expLE; infer_instance

instance : IsTotal Expense expLE := by
  constructor
  intro a b
  rcases lt_trichotomy a.date b.date with h | h | h
  · exact Or.inr (Or.inl h)
  · rcases Nat.le_total b.id a.id with h' | h'
    · exact Or.inl (Or.inr ⟨h, h'⟩)
    · exact Or.inr (Or.inr ⟨h.symm, h'⟩)
  · exact Or.inl (Or.inl h)

instance : IsTrans Expense expLE := by
  constructor
  intro a b c hab hbc
  rcases hab with h1 | ⟨h1, h1'⟩ <;> rcases hbc with h2 | ⟨h2, h2'⟩
  · exact Or.inl (lt_trans h2 h1)
  · exact Or.inl (h2 ▸ h1)
  · exact Or.inl (lt_of_lt_of_le h2 (le_of_eq h1.symm))
  · exact Or.inr ⟨h1.trans h2, le_trans h2' h1'⟩

/-- Comparison of `ORDER BY total DESC` in get_summary. -/
def rowTotalGE (a b : ℚ × String × Nat) : Prop := b.1 ≤ a.1

instance : DecidableRel rowTotalGE := fun a b => by
  unfold rowTotalGE; infer_instance

instance : IsTotal (ℚ × String × Nat) rowTotalGE :=
  ⟨fun a b => le_total b.1 a.1⟩

instance : IsTrans (ℚ × String × Nat) rowTotalGE :=
  ⟨fun _ _ _ h1 h2 => le_trans h2 h1⟩

/-- add_expense: validates `amount <= 0`, defaults the date to today when the
argument is `None`, and inserts a fresh row.  `today` and `createdAt` stand
for the environment's `datetime.now()` values. -/
def add_expense (db : DB) (amount : ℚ) (category description subcategory : String)
    (date : Option String) (today createdAt : String) : String × DB :=
  if amount ≤ 0 then
    ("Error: Amount must be positive", db)
  else
    let d := date.getD today
    let e : Expense :=
      ⟨db.nextId, amount, category, subcategory, description, d, createdAt⟩
    ("✓ Expense added! ID: " ++ Nat.repr e.id ++ ", $" ++ money amount ++ " - " ++
       category ++ ", Date: " ++ d,
     ⟨db.rows ++ [e], db.nextId + 1⟩)

/-- Rows produced by the SELECT of get_expenses: the WHERE filter followed by
`ORDER BY date DESC, id DESC`. -/
def get_expenses_rows (db : DB) (start_date end_date category : Option String) :
    List Expense :=
  List.insertionSort expLE (db.rows.filter (rowPasses start_date end_date category))

/-- Text rendering of one listed expense. -/
def renderExpense (e : Expense) : String :=
  "ID: " ++ Nat.repr e.id ++ " | $" ++ money e.amount ++ " | " ++ e.category ++
    (if !(e.subcategory == "") then " > " ++ e.subcategory else "") ++
    (if !(e.description == "") then " | " ++ e.description else "") ++
    " | " ++ e.date ++ "\n"

/-- get_expenses: the full tool, rendering the filtered ordered rows and
their total, or the no-results text. -/
def get_expenses (db : DB) (start_date end_date category : Option String) : String :=
  let expenses := get_expenses_rows db start_date end_date category
  if expenses.isEmpty then
    "No expenses found"
  else
    "Found " ++ Nat.repr expenses.length ++ " expense(s):\n\n" ++
      String.join (expenses.map renderExpense) ++
      "\nTotal: $" ++ money ((expenses.map (·.amount)).sum)

/-- edit_expense: NotFound when no row has the id, NoChanges when every
optional field is omitted, otherwise `UPDATE` sets exactly the supplied
columns of the matching row. -/
def edit_expense (db : DB) (expense_id : Nat) (amount : Option ℚ)
    (category subcategory description date : Option String) : String × DB :=
  if !(db.rows.any fun r => r.id == expense_id) then
    ("Error: Expense with ID " ++ Nat.repr expense_id ++ " not found", db)
  else if amount.isNone && category.isNone && subcategory.isNone &&
      description.isNone && date.isNone then
    ("Error: No fields to update", db)
  else
    ("✓ Expense ID " ++ Nat.repr expense_id ++ " updated!",
     ⟨db.rows.map fun r =>
        if r.id == expense_id then
          { r with
            amount := amount.getD r.amount
            category := category.getD r.category
            subcategory := subcategory.getD r.subcategory
            description := description.getD r.description
            date := date.getD r.date }
        else r,
      db.nextId⟩)

/-- delete_expense: removes the row with the id; NotFound is detected by the
DELETE affecting zero rows. -/
def delete_expense (db : DB) (expense_id : Nat) : String × DB :=
  let remaining := db.rows.filter fun r => !(r.id == expense_id)
  if remaining.length = db.rows.length then
    ("Error: Expense with ID " ++ Nat.repr expense_id ++ " not found", db)
  else
    ("✓ Expense ID " ++ Nat.repr expense_id ++ " deleted!", ⟨remaining, db.nextId⟩)

/-- Grouped rows of get_summary's SELECT: for each distinct category of the
date-filtered rows, the sum of its amounts and its row count, ordered by
total descending.  Each group is `(total, category, count)`. -/
def get_summary_rows (db : DB) (start_date end_date : Option String) :
    List (ℚ × String × Nat) :=
  let l := db.rows.filter (rowPasses start_date end_date none)
  let cats := (l.map (·.category)).dedup
  List.insertionSort rowTotalGE
    (cats.map fun c =>
      let g := l.filter fun e => e.category == c
      ((g.map (·.amount)).sum, c, g.length))

/-- Grand total accumulated by get_summary's output loop. -/
def grandTotal (db : DB) (start_date end_date : Option String) : ℚ :=
  ((get_summary_rows db start_date end_date).map (·.1)).sum

/-- get_summary: the full tool, rendering the per-category groups and the
grand total, or the no-results text. -/
def get_summary (db : DB) (start_date end_date : Option String) : String :=
  let summary := get_summary_rows db start_date end_date
  if summary.isEmpty then
    "No expenses found"
  else
    "Expense Summary by Category:\n\n" ++
      String.join (summary.map fun row =>
        row.2.1 ++ ": $" ++ money row.1 ++ " (" ++ Nat.repr row.2.2 ++ " expenses)\n") ++
      "\nGrand Total: $" ++ money (grandTotal db start_date end_date)

/-- get_categories: the static resource text. -/
def get_categories : String :=
  let categories : List (String × List String) :=
    [("Food", ["Groceries", "Restaurants", "Coffee"]),
     ("Transport", ["Fuel", "Public Transit", "Uber/Taxi"]),
     ("Shopping", ["Clothing", "Electronics", "General"]),
     ("Bills", ["Rent", "Electricity", "Internet", "Phone"]),
     ("Entertainment", ["Movies", "Games", "Hobbies"]),
     ("Healthcare", ["Medicine", "Doctor", "Gym"]),
     ("Education", ["Books", "Courses", "Supplies"]),
     ("Other", ["Miscellaneous"])]
  "Common Expense Categories:\n\n" ++
    String.join (categories.map fun p =>
      "• " ++ p.1 ++ "\n  Subcategories: " ++ String.intercalate ", " p.2 ++ "\n\n")

/-- Sample row used for concrete evaluations. -/
def exFood : Expense := ⟨1, 5, "Food", "", "", "2024-01-15", "t1"⟩

/-- Second sample row used for concrete evaluations. -/
def exTransport : Expense := ⟨2, 3, "Transport", "", "", "2024-01-20", "t2"⟩

/-- Sample store with two rows. -/
def dbSample : DB := ⟨[exFood, exTransport], 3⟩

/-- C1: for every amount a ≤ 0 and any category, description, subcategory and
date, add returns the InvalidAmount error text and leaves the store unchanged:
no record is persisted. -/
theorem add_expense_rejects_nonpositive (db : DB) (a : ℚ) (c d s : String)
    (dt : Option String) (today ca : String) (h : a ≤ 0) :
    add_expense db a c d s dt today ca = ("Error: Amount must be positive", db) := by
  simp [add_expense, h]

theorem add_expense_rejects_nonpositive_witness :
    add_expense ⟨[], 1⟩ (-2) "Food" "" "" none "2024-01-01" "t0" =
      ("Error: Amount must be positive", ⟨[], 1⟩) :=
  add_expense_rejects_nonpositive ⟨[], 1⟩ (-2) "Food" "" "" none "2024-01-01" "t0"
    (by norm_num)

/-- C3: edit with an unknown id returns the NotFound error, and edit of an
existing id with every optional field omitted returns the NoChanges error; in
both cases the store is unchanged. -/
theorem edit_expense_error_cases (db : DB) (eid : Nat) (a? : Option ℚ)
    (c? s? d? t? : Option String) :
    ((∀ r ∈ db.rows, r.id ≠ eid) →
      edit_expense db eid a? c? s? d? t? =
        ("Error: Expense with ID " ++ Nat.repr eid ++ " not found", db)) ∧
    ((∃ r ∈ db.rows, r.id = eid) →
      edit_expense db eid none none none none none =
        ("Error: No fields to update", db)) := by
  constructor
  · intro h
    have hany : (db.rows.any fun r => r.id == eid) = false := by
      simp only [List.any_eq_false, beq_iff_eq]
      exact h
    simp [edit_expense, hany]
  · rintro ⟨r, hr, hid⟩
    have hany : (db.rows.any fun r => r.id == eid) = true := by
      simp only [List.any_eq_true, beq_iff_eq]
      exact ⟨r, hr, hid⟩
    simp [edit_expense, hany]

theorem edit_expense_error_cases_witness :
    edit_expense dbSample 7 none none none none none =
      ("Error: Expense with ID " ++ Nat.repr 7 ++ " not found", dbSample) ∧
    edit_expense dbSample 1 none none none none none =
      ("Error: No fields to update", dbSample) :=
  ⟨(edit_expense_error_cases dbSample 7 none none none none none).1 (by decide),
   (edit_expense_error_cases dbSample 1 none none none none none).2 (by decide)⟩

/-- C10: when the id is unknown and every optional field is omitted, the
NotFound error is returned, not the NoChanges error: the existence check
takes precedence. -/
theorem edit_expense_notfound_precedence (db : DB) (eid : Nat)
    (h : ∀ r ∈ db.rows, r.id ≠ eid) :
    (edit_expense db eid none none none none none).1 =
      "Error: Expense with ID " ++ Nat.repr eid ++ " not found" ∧
    (edit_expense db eid none none none none none).1 ≠ "Error: No fields to update" := by
  have hany : (db.rows.any fun r => r.id == eid) = false := by
    simp only [List.any_eq_false, beq_iff_eq]
    exact h
  have h1 : (edit_expense db eid none none none none none).1 =
      "Error: Expense with ID " ++ Nat.repr eid ++ " not found" := by
    simp [edit_expense, hany]
  refine ⟨h1, ?_⟩
  rw [h1]
  intro heq
  have hlen := congrArg String.length heq
  rw [String.length_append, String.length_append] at hlen
  have h2 : ("Error: Expense with ID ").length = 23 := rfl
  have h3 : (" not found").length = 10 := rfl
  have h4 : ("Error: No fields to update").length = 26 := rfl
  omega

theorem edit_expense_notfound_precedence_witness :
    (edit_expense dbSample 7 none none none none none).1 =
      "Error: Expense with ID " ++ Nat.repr 7 ++ " not found" ∧
    (edit_expense dbSample 7 none none none none none).1 ≠ "Error: No fields to update" :=
  edit_expense_notfound_precedence dbSample 7 (by decide)

/-- C8: edit of an existing record with any supplied amount, including
amounts ≤ 0, succeeds and stores that amount: amount is not re-validated on
update. -/
theorem edit_expense_amount_not_validated (db : DB) (eid : Nat) (a : ℚ)
    (hex : ∃ r ∈ db.rows, r.id = eid) :
    (edit_expense db eid (some a) none none none none).1 =
      "✓ Expense ID " ++ Nat.repr eid ++ " updated!" ∧
    ∀ i : Nat, ((edit_expense db eid (some a) none none none none).2.rows[i]?).map
        (·.amount) =
      (db.rows[i]?).map fun r => if r.id = eid then a else r.amount := by
  obtain ⟨r, hr, hid⟩ := hex
  have hany : (db.rows.any fun r => r.id == eid) = true := by
    simp only [List.any_eq_true, beq_iff_eq]
    exact ⟨r, hr, hid⟩
  constructor
  · simp [edit_expense, hany]
  · intro i
    simp only [edit_expense, hany, Bool.not_true, Bool.false_eq_true, if_false,
      Option.isNone_some, Option.isNone_none, Bool.false_and, List.getElem?_map]
    cases db.rows[i]? with
    | none => rfl
    | some x =>
      by_cases hx : x.id = eid
      · simp [hx]
      · simp [hx]

theorem edit_expense_amount_not_validated_witness :
    (edit_expense dbSample 1 (some (-5)) none none none none).1 =
      "✓ Expense ID " ++ Nat.repr 1 ++ " updated!" :=
  (edit_expense_amount_not_validated dbSample 1 (-5) (by decide)).1

/-- C4: a successful edit updates exactly the supplied fields of the matching
record (a supplied empty string is an explicit value, captured by `Option.getD`
at `some ""`), leaves its other fields, its id and its created_at unchanged,
and leaves every other record and the id counter unchanged. -/
theorem edit_expense_updates_exactly_supplied (db : DB) (eid : Nat)
    (a? : Option ℚ) (c? s? d? t? : Option String)
    (hex : ∃ r ∈ db.rows, r.id = eid)
    (hsupplied : a? ≠ none ∨ c? ≠ none ∨ s? ≠ none ∨ d? ≠ none ∨ t? ≠ none) :
    (edit_expense db eid a? c? s? d? t?).1 =
      "✓ Expense ID " ++ Nat.repr eid ++ " updated!" ∧
    (edit_expense db eid a? c? s? d? t?).2.nextId = db.nextId ∧
    (edit_expense db eid a? c? s? d? t?).2.rows.length = db.rows.length ∧
    ∀ i : Nat, ∀ r r' : Expense, db.rows[i]? = some r →
      (edit_expense db eid a? c? s? d? t?).2.rows[i]? = some r' →
      r'.id = r.id ∧ r'.created_at = r.created_at ∧
      (r.id ≠ eid → r' = r) ∧
      (r.id = eid →
        r'.amount = a?.getD r.amount ∧
        r'.category = c?.getD r.category ∧
        r'.subcategory = s?.getD r.subcategory ∧
        r'.description = d?.getD r.description ∧
        r'.date = t?.getD r.date) := by
  obtain ⟨r0, hr0, hid0⟩ := hex
  have hany : (db.rows.any fun r => r.id == eid) = true := by
    simp only [List.any_eq_true, beq_iff_eq]
    exact ⟨r0, hr0, hid0⟩
  have hnone : (a?.isNone && c?.isNone && s?.isNone && d?.isNone && t?.isNone) = false := by
    rcases hsupplied with h | h | h | h | h <;>
      simp [Option.isNone_eq_false_iff, Option.isSome_iff_ne_none, h]
  have hred : (edit_expense db eid a? c? s? d? t?) =
      ("✓ Expense ID " ++ Nat.repr eid ++ " updated!",
       ⟨db.rows.map fun r =>
          if r.id == eid then
            { r with
              amount := a?.getD r.amount
              category := c?.getD r.category
              subcategory := s?.getD r.subcategory
              description := d?.getD r.description
              date := t?.getD r.date }
          else r,
        db.nextId⟩) := by
    rw [edit_expense]
    rw [hany, hnone]
    rfl
  rw [hred]
  refine ⟨rfl, rfl, List.length_map _ _, ?_⟩
  intro i r r' hr hr'
  rw [List.getElem?_map, hr] at hr'
  simp only [Option.map_some'] at hr'
  by_cases hmatch : r.id = eid
  · have hb : (r.id == eid) = true := beq_iff_eq.mpr hmatch
    rw [hb] at hr'
    simp only [if_true] at hr'
    have hinj := Option.some.inj hr'
    subst hinj
    exact ⟨rfl, rfl, fun hne => absurd hmatch hne, fun _ => ⟨rfl, rfl, rfl, rfl, rfl⟩⟩
  · have hb : (r.id == eid) = false := by simp [hmatch]
    rw [hb] at hr'
    simp only [Bool.false_eq_true, if_false] at hr'
    have hinj := Option.some.inj hr'
    subst hinj
    exact ⟨rfl, rfl, fun _ => rfl, fun h => absurd h hmatch⟩

theorem edit_expense_updates_exactly_supplied_witness :
    (edit_expense dbSample 1 none (some "") none none none).1 =
      "✓ Expense ID " ++ Nat.repr 1 ++ " updated!" :=
  (edit_expense_updates_exactly_supplied dbSample 1 none (some "") none none none
    (by decide) (Or.inr (Or.inl (by decide)))).1

/-- C5: delete of an unknown id returns the NotFound error and leaves the
store unchanged; delete of an existing id succeeds and removes the record, so
a subsequent list never returns it and a subsequent edit reports NotFound. -/
theorem delete_expense_spec (db : DB) (eid : Nat) :
    ((∀ r ∈ db.rows, r.id ≠ eid) →
      delete_expense db eid =
        ("Error: Expense with ID " ++ Nat.repr eid ++ " not found", db)) ∧
    ((∃ r ∈ db.rows, r.id = eid) →
      (delete_expense db eid).1 = "✓ Expense ID " ++ Nat.repr eid ++ " deleted!" ∧
      (∀ sd ed cat, ∀ r ∈ get_expenses_rows (delete_expense db eid).2 sd ed cat,
        r.id ≠ eid) ∧
      (∀ a? c? s? d? t?, edit_expense (delete_expense db eid).2 eid a? c? s? d? t? =
        ("Error: Expense with ID " ++ Nat.repr eid ++ " not found",
         (delete_expense db eid).2))) := by
  constructor
  · intro h
    have hkeep : (db.rows.filter fun r => !(r.id == eid)) = db.rows := by
      rw [List.filter_eq_self]
      intro r hr
      simp [h r hr]
    simp [delete_expense, hkeep]
  · rintro ⟨r0, hr0, hid0⟩
    have hne : ¬ ((db.rows.filter fun r => !(r.id == eid)).length = db.rows.length) := by
      intro hlen
      have heq : (db.rows.filter fun r => !(r.id == eid)) = db.rows :=
        (List.filter_sublist db.rows).eq_of_length hlen
      have := (List.filter_eq_self.mp heq) r0 hr0
      simp [hid0] at this
    have hred : (delete_expense db eid) =
        ("✓ Expense ID " ++ Nat.repr eid ++ " deleted!",
         ⟨db.rows.filter fun r => !(r.id == eid), db.nextId⟩) := by
      rw [delete_expense]
      simp only [hne, if_false]
    rw [hred]
    have hmemid : ∀ r ∈ (db.rows.filter fun r => !(r.id == eid)), r.id ≠ eid := by
      intro r hr
      have := (List.mem_filter.mp hr).2
      simpa using this
    refine ⟨rfl, ?_, ?_⟩
    · intro sd ed cat r hr
      have hmem : r ∈ (db.rows.filter fun r => !(r.id == eid)).filter
          (rowPasses sd ed cat) := by
        have hperm := List.perm_insertionSort expLE
          (((⟨db.rows.filter fun r => !(r.id == eid), db.nextId⟩ : DB)).rows.filter
            (rowPasses sd ed cat))
        exact hperm.mem_iff.mp hr
      exact hmemid r (List.mem_filter.mp hmem).1
    · intro a? c? s? d? t?
      have hany : (((⟨db.rows.filter fun r => !(r.id == eid), db.nextId⟩ : DB)).rows.any
          fun r => r.id == eid) = false := by
        simp only [List.any_eq_false, beq_iff_eq]
        exact hmemid
      simp [edit_expense, hany]

theorem delete_expense_spec_witness :
    delete_expense dbSample 7 =
      ("Error: Expense with ID " ++ Nat.repr 7 ++ " not found", dbSample) ∧
    (delete_expense dbSample 1).1 = "✓ Expense ID " ++ Nat.repr 1 ++ " deleted!" :=
  ⟨(delete_expense_spec dbSample 7).1 (by decide),
   ((delete_expense_spec dbSample 1).2 (by decide)).1⟩

/-- Helper: one WHERE-clause factor built from an optional argument holds iff
the underlying condition holds whenever the argument is a non-empty string. -/
theorem truthyFactor_iff (o : Option String) (p : String → Bool) :
    (if strTruthy o then p (o.getD "") else true) = true ↔
      ∀ s, o = some s → s ≠ "" → p s = true := by
  rcases o with _ | s
  · simp [strTruthy]
  · by_cases h : s = ""
    · subst h; simp [strTruthy]
    · simp [strTruthy, h]

/-- Helper: a row passes the list/summary WHERE clause iff each supplied
non-empty filter holds for it; a missing or empty-string argument imposes no
condition. -/
theorem rowPasses_iff (sd ed cat : Option String) (e : Expense) :
    rowPasses sd ed cat e = true ↔
      (∀ s, sd = some s → s ≠ "" → s ≤ e.date) ∧
      (∀ s, ed = some s → s ≠ "" → e.date ≤ s) ∧
      (∀ s, cat = some s → s ≠ "" → e.category = s) := by
  unfold rowPasses
  simp only [Bool.and_eq_true]
  rw [truthyFactor_iff sd fun s => decide (s ≤ e.date),
      truthyFactor_iff ed fun s => decide (e.date ≤ s),
      truthyFactor_iff cat fun s => s == e.category]
  simp only [decide_eq_true_eq, beq_iff_eq]
  constructor
  · rintro ⟨⟨h1, h2⟩, h3⟩
    exact ⟨h1, h2, fun s hs hne => (h3 s hs hne).symm⟩
  · rintro ⟨h1, h2, h3⟩
    exact ⟨⟨h1, h2⟩, fun s hs hne => (h3 s hs hne).symm⟩

/-- C2 counterexample: with the category filter supplied as the empty string,
the claim predicts that only rows whose category equals "" are returned, but
the code treats the falsy argument as absent and returns the Food row. -/
theorem get_expenses_rows_empty_filter_counterexample :
    get_expenses_rows ⟨[exFood], 2⟩ none none (some "") = [exFood] ∧
    exFood.category ≠ "" := by
  constructor
  · rfl
  · decide

/-- C2 (amended): list returns exactly the stored records satisfying the
conjunction of the supplied filters, where a filter supplied as the empty
string is treated as omitted (Python truthiness), like a missing one. -/
theorem get_expenses_rows_membership (db : DB) (sd ed cat : Option String)
    (r : Expense) :
    r ∈ get_expenses_rows db sd ed cat ↔
      r ∈ db.rows ∧
      (∀ s, sd = some s → s ≠ "" → s ≤ r.date) ∧
      (∀ s, ed = some s → s ≠ "" → r.date ≤ s) ∧
      (∀ s, cat = some s → s ≠ "" → r.category = s) := by
  unfold get_expenses_rows
  rw [(List.perm_insertionSort expLE _).mem_iff, List.mem_filter, rowPasses_iff]

/-- C7: when stored ids are distinct, the sequence returned by list is sorted
by date descending with ties on date broken by id descending. -/
theorem get_expenses_rows_sorted (db : DB) (sd ed cat : Option String)
    (h : (db.rows.map (·.id)).Nodup) :
    (get_expenses_rows db sd ed cat).Pairwise
      (fun a b => b.date < a.date ∨ (a.date = b.date ∧ b.id < a.id)) := by
  have hsorted : (get_expenses_rows db sd ed cat).Pairwise expLE :=
    List.sorted_insertionSort expLE (db.rows.filter (rowPasses sd ed cat))
  have hperm : List.Perm (get_expenses_rows db sd ed cat)
      (db.rows.filter (rowPasses sd ed cat)) :=
    List.perm_insertionSort expLE _
  have hnodupf : ((db.rows.filter (rowPasses sd ed cat)).map (·.id)).Nodup :=
    ((List.filter_sublist db.rows).map (·.id)).nodup h
  have hnodup : ((get_expenses_rows db sd ed cat).map (·.id)).Nodup :=
    (hperm.map (·.id)).nodup_iff.mpr hnodupf
  have hne : (get_expenses_rows db sd ed cat).Pairwise fun a b => a.id ≠ b.id :=
    List.pairwise_map.mp hnodup
  refine (hsorted.and hne).imp ?_
  rintro a b ⟨hle, hid⟩
  rcases hle with h1 | ⟨h1, h2⟩
  · exact Or.inl h1
  · exact Or.inr ⟨h1, lt_of_le_of_ne h2 (Ne.symm hid)⟩

theorem get_expenses_rows_sorted_witness :
    (get_expenses_rows dbSample none none none).Pairwise
      (fun a b => b.date < a.date ∨ (a.date = b.date ∧ b.id < a.id)) :=
  get_expenses_rows_sorted dbSample none none none (by decide)

/-- Helper: a sum of pointwise sums of rationals splits. -/
theorem sum_map_add_q {α : Type} (l : List α) (f g : α → ℚ) :
    (l.map fun c => f c + g c).sum = (l.map f).sum + (l.map g).sum := by
  induction l with
  | nil => simp
  | cons c cs ih =>
    simp only [List.map_cons, List.sum_cons, ih]
    ring

/-- Helper: summing an indicator of one element of a duplicate-free list
yields that element's value. -/
theorem sum_map_single (x : String) (a : ℚ) :
    ∀ cats : List String, cats.Nodup → x ∈ cats →
      (cats.map fun c => if x = c then a else 0).sum = a := by
  intro cats
  induction cats with
  | nil => intro _ hx; cases hx
  | cons c cs ih =>
    intro hn hx
    simp only [List.map_cons, List.sum_cons]
    rcases List.mem_cons.mp hx with rfl | hxs
    · have hnot : x ∉ cs := (List.nodup_cons.mp hn).1
      have hz : (cs.map fun c => if x = c then a else 0).sum = 0 := by
        apply List.sum_eq_zero
        intro y hy
        rcases List.mem_map.mp hy with ⟨c', hc', rfl⟩
        rw [if_neg]
        intro h
        exact hnot (h ▸ hc')
      rw [if_pos rfl, hz, add_zero]
    · have hxc : x ≠ c := by
        intro h
        exact (List.nodup_cons.mp hn).1 (h ▸ hxs)
      rw [if_neg hxc, ih (List.nodup_cons.mp hn).2 hxs, zero_add]

/-- Helper: grouping a list of rows by a duplicate-free cover of their
categories preserves the sum of amounts. -/
theorem sum_grouped (cats : List String) (hn : cats.Nodup) :
    ∀ l : List Expense, (∀ e ∈ l, e.category ∈ cats) →
      (cats.map fun c => ((l.filter fun e => e.category == c).map (·.amount)).sum).sum
        = (l.map (·.amount)).sum := by
  intro l
  induction l with
  | nil =>
    intro _
    simp only [List.filter_nil, List.map_nil, List.sum_nil]
    apply List.sum_eq_zero
    intro y hy
    rcases List.mem_map.mp hy with ⟨c, _, rfl⟩
    rfl
  | cons e l ih =>
    intro hall
    have hcat : e.category ∈ cats := hall e (List.mem_cons_self e l)
    have hall' : ∀ x ∈ l, x.category ∈ cats := fun x hx =>
      hall x (List.mem_cons_of_mem e hx)
    have hstep :
        (cats.map fun c =>
            (((e :: l).filter fun x => x.category == c).map (·.amount)).sum)
          = cats.map fun c => ((if e.category = c then e.amount else 0) +
              ((l.filter fun x => x.category == c).map (·.amount)).sum) := by
      apply List.map_congr_left
      intro c _
      by_cases h : e.category = c
      · simp [List.filter_cons, h]
      · simp [List.filter_cons, h]
    rw [hstep, sum_map_add_q, sum_map_single e.category e.amount cats hn hcat, ih hall']
    simp

/-- Helper: projecting the totals out of the unsorted category groups of a
row list and summing them gives the sum of all amounts. -/
theorem summary_groups_sum (l : List Expense) :
    ((((l.map (·.category)).dedup).map fun c =>
        ((((l.filter fun e => e.category == c).map (·.amount)).sum, c,
          (l.filter fun e => e.category == c).length) : ℚ × String × Nat)).map
      (·.1)).sum = (l.map (·.amount)).sum := by
  rw [List.map_map]
  exact sum_grouped _ (List.nodup_dedup _) l
    (fun e he => List.mem_dedup.mpr (List.mem_map_of_mem (·.category) he))

/-- C6: the grand total reported by summarize equals the sum of the
per-category group totals, which equals the sum of amount over the records
passing the date filters. -/
theorem get_summary_totals_consistent (db : DB) (sd ed : Option String) :
    grandTotal db sd ed = ((get_summary_rows db sd ed).map (·.1)).sum ∧
    grandTotal db sd ed =
      ((db.rows.filter (rowPasses sd ed none)).map (·.amount)).sum := by
  refine ⟨rfl, ?_⟩
  simp only [grandTotal, get_summary_rows]
  rw [((List.perm_insertionSort rowTotalGE _).map
    (·.1 : ℚ × String × Nat → ℚ)).sum_eq]
  exact summary_groups_sum (db.rows.filter (rowPasses sd ed none))

/-- C9 counterexample: starting from the empty store, add with a positive
amount and an empty category string persists a record whose category is the
empty string — neither add nor edit enforces non-emptiness. -/
theorem add_expense_empty_category_counterexample :
    ((add_expense ⟨[], 1⟩ 5 "" "" "" (some "2024-01-01") "2024-01-01" "t0").2.rows.map
      (·.category)) = [""] := by
  decide

/-- C9 (amended): category strings are stored exactly as supplied, with no
non-emptiness validation: a successful add appends a record carrying the
supplied category, and edit with a supplied category overwrites the matching
record's category with it — in both cases including the empty string. -/
theorem category_stored_as_supplied (db : DB) (a : ℚ) (c d s : String)
    (dt : Option String) (today ca : String) (eid : Nat) :
    (0 < a →
      ((add_expense db a c d s dt today ca).2.rows.map (·.category)) =
        db.rows.map (·.category) ++ [c]) ∧
    ((∃ r ∈ db.rows, r.id = eid) →
      ((edit_expense db eid none (some c) none none none).2.rows.map (·.category)) =
        db.rows.map fun r => if r.id = eid then c else r.category) := by
  constructor
  · intro ha
    have hna : ¬ (a ≤ 0) := not_le.mpr ha
    simp [add_expense, hna]
  · rintro ⟨r0, hr0, hid0⟩
    have hany : (db.rows.any fun r => r.id == eid) = true := by
      simp only [List.any_eq_true, beq_iff_eq]
      exact ⟨r0, hr0, hid0⟩
    have hnone : ((none : Option ℚ).isNone && (some c).isNone &&
        (none : Option String).isNone && (none : Option String).isNone &&
        (none : Option String).isNone) = false := by
      rfl
    rw [edit_expense, hany, hnone]
    simp only [Bool.not_true, Bool.false_eq_true, if_false]
    rw [List.map_map]
    apply List.map_congr_left
    intro r _
    by_cases h : r.id = eid
    · simp [Function.comp, h]
    · simp [Function.comp, h]

theorem category_stored_as_supplied_witness :
    ((add_expense dbSample 5 "" "" "" none "2024-02-02" "t9").2.rows.map
      (·.category)) = dbSample.rows.map (·.category) ++ [""] ∧
    ((edit_expense dbSample 1 none (some "") none none none).2.rows.map
      (·.category)) = dbSample.rows.map fun r => if r.id = 1 then "" else r.category :=
  ⟨(category_stored_as_supplied dbSample 5 "" "" "" none "2024-02-02" "t9" 1).1
    (by norm_num),
   (category_stored_as_supplied dbSample 5 "" "" "" none "2024-02-02" "t9" 1).2
    (by decide)⟩
